import Mathlib

/-!
Shallow embedding of `src/resources/generate/main.ts` of the catppuccin
repository: a build-time script that merges a ports catalog and a userstyles
catalog, groups the merged entries by primary category, sorts each bucket by
display name, renders markdown fragments and splices them into the README.

JavaScript runtime conventions used throughout the embedding:
  * a possibly-absent value (`undefined`/`null`) is an `Option`;
  * string truthiness (`if (!url)`, `port.alias && ...`,
    `showcaseContent && ...`): `none` and `some ""` are falsy;
  * a JS object is an association list with unique keys in insertion order;
    property assignment overwrites the value in place, keeping the key's
    original position (`objInsert`);
  * `String.prototype.localeCompare` is modelled as code-point lexicographic
    comparison on the character sequences (`a.name.data ≤ b.name.data`);
    locale-sensitive collation tables are not embeddable, and every claim
    below depends only on the comparator being a total preorder on names;
  * `Array.prototype.sort` (stable, ES2019+) is modelled by the stable
    `List.insertionSort`;
  * `throw` is `Except.error` with a structured error; `RunError.message`
    recovers the exact thrown message string.
-/

namespace Catppuccin

/-- The `type` discriminator added by the merger (`"port" | "userstyle"`). -/
inductive PortType where
  | port
  | userstyle
deriving DecidableEq, Repr

/-- One value of a `supports` mapping: a record with at least a `name`. -/
structure SupportEntry where
  name : String
deriving DecidableEq, Repr

/-- The common runtime shape of a port (from `ports.yml`) and a userstyle
(from the remote catalog) after schema validation: `name`, `categories`
(ordered category keys), and the optional fields the script touches.
A userstyle simply has `«alias» := none` (it carries no alias property). -/
structure Entry where
  name : String
  categories : List String
  url : Option String := none
  «alias» : Option String := none
  supports : Option (List (String × SupportEntry)) := none
  readme : Option String := none
  platform : Option String := none
deriving DecidableEq, Repr

/-- `MappedPort`: an `Entry` tagged with its origin (`type: "port" | "userstyle"`),
as built by the two labelling reduces at lines 51-68 of `main.ts`. -/
structure MappedPort extends Entry where
  type : PortType
deriving DecidableEq, Repr

/-- A category definition from `categories.yml`: `key`, display `name`, `emoji`. -/
structure Category where
  key : String
  name : String
  emoji : String
deriving DecidableEq, Repr

/-- A showcase entry from `ports.yml`. -/
structure Showcase where
  title : String
  link : String
  description : String
deriving DecidableEq, Repr

/-- A row pushed onto a category bucket: the runtime value `{...port, url}`
(resp. `{...port, url, name}` for a supports variant).  The object spread
copies EVERY property of the source entry — including `readme` and
`platform` — and then overrides `url` (and `name`).  The accumulator's
static type annotation `Omit<MappedPort, "readme" | "platform">[]` erases
nothing at runtime, so the row type deliberately keeps all fields. -/
structure Row where
  name : String
  url : String
  categories : List String
  «alias» : Option String := none
  supports : Option (List (String × SupportEntry)) := none
  readme : Option String := none
  platform : Option String := none
  type : PortType
deriving DecidableEq, Repr

/-- JS string truthiness for a possibly-absent string: `undefined`, `null`
and `""` are falsy. -/
def strTruthy : Option String → Bool
  | none => false
  | some s => s ≠ ""

/-- JS object property assignment `acc[k] = v` on an association list:
if the key is present its value is replaced in place (the key keeps its
original insertion position), otherwise the pair is appended. -/
def objInsert (m : List (String × α)) (k : String) (v : α) : List (String × α) :=
  if m.any (fun p => p.1 = k) then
    m.map (fun p => if p.1 = k then (k, v) else p)
  else
    m ++ [(k, v)]

/-- A JS object built by inserting a list of entries into `{}` in order
(models both `reduce((acc, [k, v]) => { acc[k] = v; ... }, {})` and the
spread of an entry list into an object literal). -/
def jsObj (l : List (String × α)) : List (String × α) :=
  l.foldl (fun acc kv => objInsert acc kv.1 kv.2) []

/-- Spreading object `b` over object `a`: `{...a, ...b}`. -/
def objSpread (a b : List (String × α)) : List (String × α) :=
  b.foldl (fun acc kv => objInsert acc kv.1 kv.2) a

/-- Lines 51-68 of `main.ts`: label every port with `type: "port"` and every
userstyle with `type: "userstyle"`, then merge the two objects with
`{...ports, ...userstyles}` — on a slug collision the later spread (the
userstyle) overwrites the port. -/
def mergedPorts (portsIn ustIn : List (String × Entry)) :
    List (String × MappedPort) :=
  let a := jsObj (portsIn.map (fun kv => (kv.1, MappedPort.mk kv.2 .port)))
  let b := jsObj (ustIn.map (fun kv => (kv.1, MappedPort.mk kv.2 .userstyle)))
  objSpread a b

/-- The value of the LAST occurrence of key `k` in an entry list — what a
sequence of JS property assignments leaves behind for that key. -/
def lastOcc (l : List (String × α)) (k : String) : Option α :=
  (l.filter (fun p => p.1 = k)).getLast?.map Prod.snd

/-- `port.categories[0]` used as an object key.  On an empty `categories`
array, JS yields `undefined` and coerces it to the property key
`"undefined"`. -/
def primaryKey (p : MappedPort) : String :=
  p.categories.headD "undefined"

/-- Line 79: `port.alias && !portSlugs.includes(port.alias)` — the alias is
truthy (set and nonempty) and names no known slug. -/
def aliasDangling (slugs : List String) (p : MappedPort) : Bool :=
  match p.«alias» with
  | none => false
  | some a => a ≠ "" && !(slugs.contains a)

/-- Lines 87-98: the derived URL used when `port.url` is falsy. -/
def derivedUrl (slug : String) (p : MappedPort) : String :=
  match p.type with
  | .port => "https://github.com/catppuccin/" ++ (p.«alias».getD slug)
  | .userstyle => "https://github.com/catppuccin/userstyles/tree/main/styles/" ++ slug

/-- Lines 85-99: `let url = port.url; if (!url) { ...derive... }`. -/
def resolvedUrl (slug : String) (p : MappedPort) : String :=
  if strTruthy p.url then p.url.getD "" else derivedUrl slug p

/-- `Object.values(port.supports ?? {})` in insertion order. -/
def supportsValues (p : MappedPort) : List SupportEntry :=
  (p.supports.getD []).map Prod.snd

/-- The runtime object `{...port, url, name}`: every field of the source
entry, with `url` and `name` overridden. -/
def rowOf (p : MappedPort) (url name : String) : Row :=
  { name := name, url := url, categories := p.categories, «alias» := p.«alias»,
    supports := p.supports, readme := p.readme, platform := p.platform,
    type := p.type }

/-- Lines 101-113: the rows pushed for one entry — `{...port, url}` followed
by `{...port, url, name}` for each value of its `supports` mapping. -/
def rowsFor (slug : String) (p : MappedPort) : List Row :=
  let url := resolvedUrl slug p
  rowOf p url p.name :: (supportsValues p).map (fun s => rowOf p url s.name)

/-- The bucket comparator `(a, b) => a.name.localeCompare(b.name)` read as a
`≤` relation on rows (see the module comment on collation). -/
def RowLe (a b : Row) : Prop :=
  a.name.data ≤ b.name.data

instance : DecidableRel RowLe :=
  fun a b => inferInstanceAs (Decidable (a.name.data ≤ b.name.data))

instance : IsTotal Row RowLe :=
  ⟨fun a b => le_total a.name.data b.name.data⟩

instance : IsTrans Row RowLe :=
  ⟨fun _ _ _ h1 h2 => le_trans h1 h2⟩

/-- The structured form of the two errors the script throws. -/
inductive RunError where
  | emptyConfig
  | danglingAlias (slug a : String)
deriving DecidableEq, Repr

/-- The exact message string carried by each `throw new Error(...)`. -/
def RunError.message : RunError → String
  | .emptyConfig => "ports.yml is empty"
  | .danglingAlias slug a =>
      "port `" ++ slug ++ "` points to an alias `" ++ a ++ "` that doesn't exist"

/-- The categorized accumulator: a JS object from category key to row array. -/
abbrev Buckets := List (String × List Row)

/-- JS object property read: the value stored under the first (and, for the
objects built here, only) occurrence of the key, `undefined` when absent. -/
def objLookup : List (String × α) → String → Option α
  | [], _ => none
  | (a, v) :: t, k => if a = k then some v else objLookup t k

/-- `categorized[k]` as an object read (`undefined` when absent). -/
def bucketGet (b : Buckets) (k : String) : Option (List Row) :=
  objLookup b k

/-- Replace the value stored under `k` (the key is known to be present). -/
def updateBucket (b : Buckets) (k : String) (f : List Row → List Row) : Buckets :=
  b.map (fun kv => if kv.1 = k then (k, f kv.2) else kv)

/-- Lines 74-117, one entry of the reduce: initialize the bucket
(`acc[port.categories[0]] ??= []`), validate the alias (throwing on a
dangling one), resolve the URL, push the entry's rows, and re-sort the
touched bucket with the name comparator. -/
def categorizedStep (slugs : List String) (acc : Buckets) (slug : String)
    (p : MappedPort) : Except RunError Buckets :=
  let key := primaryKey p
  let acc := if (bucketGet acc key).isSome then acc else acc ++ [(key, [])]
  if aliasDangling slugs p then
    .error (.danglingAlias slug (p.«alias».getD ""))
  else
    .ok (updateBucket acc key
      (fun old => List.insertionSort RowLe (old ++ rowsFor slug p)))

/-- The reduce of lines 72-120 started from an arbitrary accumulator; a
thrown error aborts the remaining iterations, as a JS `throw` inside
`reduce` does. -/
def categorizedFoldFrom (slugs : List String) (acc : Buckets) :
    List (String × MappedPort) → Except RunError Buckets
  | [] => .ok acc
  | kv :: t =>
    match categorizedStep slugs acc kv.1 kv.2 with
    | .error e => .error e
    | .ok acc' => categorizedFoldFrom slugs acc' t

/-- Lines 72-120: the full `categorized` reduce over `Object.entries(ports)`,
started from `{}`. -/
def categorizedFold (slugs : List String) (entries : List (String × MappedPort)) :
    Except RunError Buckets :=
  categorizedFoldFrom slugs [] entries

/-- Lines 70-120: `portSlugs` then `categorized`, from the merged object. -/
def categorized (portsIn ustIn : List (String × Entry)) :
    Except RunError Buckets :=
  let m := mergedPorts portsIn ustIn
  categorizedFold (m.map Prod.fst) m

/-- Lines 122-127: pair each category (in declared configuration order) with
its bucket, `categorized[category.key] ?? []`. -/
def portListData (cats : List Category) (b : Buckets) :
    List (Category × List Row) :=
  cats.map (fun c => (c, (bucketGet b c.key).getD []))

/-- One markdown list item, `- [{name}]({url})`. -/
def rowItem (r : Row) : String :=
  "- [" ++ r.name ++ "](" ++ r.url ++ ")"

/-- The collapsible block template of lines 135-140. -/
def detailsBlock (c : Category) (rows : List Row) : String :=
  "<details open>\n<summary>" ++ c.emoji ++ " " ++ c.name ++ "</summary>\n\n"
    ++ String.intercalate "\n" (rows.map rowItem) ++ "\n\n</details>"

/-- Lines 132-142: drop the categories whose bucket is empty, render each
remaining one as a collapsible block, join with newlines. -/
def portContent (cats : List Category) (b : Buckets) : String :=
  String.intercalate "\n"
    (((portListData cats b).filter (fun d => d.2.length != 0)).map
      (fun d => detailsBlock d.1 d.2))

/-- One showcase list item, `- [{title}]({link}) - {description}`. -/
def showcaseItem (s : Showcase) : String :=
  "- [" ++ s.title ++ "](" ++ s.link ++ ") - " ++ s.description

/-- Lines 144-148: `portsData.showcases?.map(...).join("\n")` — `none` when
the showcases collection is absent (optional chaining). -/
def showcaseContent (showcases : Option (List Showcase)) : Option String :=
  showcases.map (fun l => String.intercalate "\n" (l.map showcaseItem))

/-- The constant README path (`join(root, "../../README.md")`). -/
def readmePath : String := "../../README.md"

/-- The side effects the final block can perform, in order. -/
inductive Effect where
  | spliceAttempt (sec : String)
  | logFailure
  | write (path : String) (content : String)
deriving DecidableEq, Repr

/-- The external `updateReadme` collaborator: given the document, the new
fragment and the section id, it returns the spliced document or throws. -/
def Splicer : Type :=
  String → String → String → Except String String

/-- Lines 150-163, the `try`/`catch`/`finally` block: splice the port list;
if that succeeded and the showcase fragment is truthy, splice the showcase;
any splice failure is caught and logged; the `finally` writes whatever
`readmeContent` holds at that point.  Returns the written document together
with the emitted effects in order. -/
def finalStage (upd : Splicer) (readme portC : String) (showC : Option String) :
    String × List Effect :=
  match upd readme portC "portlist" with
  | .error _ =>
      (readme, [.spliceAttempt "portlist", .logFailure,
                .write readmePath readme])
  | .ok r1 =>
      if strTruthy showC then
        match upd r1 (showC.getD "") "showcase" with
        | .error _ =>
            (r1, [.spliceAttempt "portlist", .spliceAttempt "showcase",
                  .logFailure, .write readmePath r1])
        | .ok r2 =>
            (r2, [.spliceAttempt "portlist", .spliceAttempt "showcase",
                  .write readmePath r2])
      else
        (r1, [.spliceAttempt "portlist", .write readmePath r1])

/-- The validated documents the script works from, plus the README text it
reads: `portsData.ports`, `categoriesData`, `userstylesData.userstyles` and
`portsData.showcases` (`none` models an absent/`undefined` collection). -/
structure RunInput where
  ports : Option (List (String × Entry))
  categories : Option (List Category)
  userstyles : Option (List (String × Entry))
  showcases : Option (List Showcase)
  readme : String

/-- The whole post-validation script (lines 40-163): the emptiness guard,
merging, grouping (which can throw), rendering, and the final splice/write
block.  An `Except.error` models an uncaught throw: the process aborts and
no effect — in particular no file write — happens. -/
def main (upd : Splicer) (i : RunInput) : Except RunError (List Effect) := do
  match i.ports, i.categories, i.userstyles with
  | some portsIn, some cats, some ustIn =>
    let b ← categorized portsIn ustIn
    let pc := portContent cats b
    let sc := showcaseContent i.showcases
    .ok (finalStage upd i.readme pc sc).2
  | _, _, _ => .error .emptyConfig

/-! ### Helper lemmas about buckets -/

theorem objLookup_cons (a : String) (v : α) (t : List (String × α))
    (k : String) :
    objLookup ((a, v) :: t) k = if a = k then some v else objLookup t k := rfl

theorem bucketGet_updateBucket (b : Buckets) (k : String)
    (f : List Row → List Row) :
    bucketGet (updateBucket b k f) k = (bucketGet b k).map f := by
  induction b with
  | nil => rfl
  | cons kv t ih =>
    obtain ⟨k', v⟩ := kv
    by_cases h : k' = k
    · subst h
      simp [updateBucket, bucketGet, objLookup_cons] at ih ⊢
    · simp only [updateBucket, List.map_cons] at ih ⊢
      rw [if_neg h]
      simp only [bucketGet, objLookup_cons, h, if_false] at ih ⊢
      exact ih

theorem bucketGet_append_new (b : Buckets) (k : String)
    (h : bucketGet b k = none) :
    bucketGet (b ++ [(k, [])]) k = some [] := by
  induction b with
  | nil => simp [bucketGet, objLookup]
  | cons kv t ih =>
    obtain ⟨k', v⟩ := kv
    by_cases hk : k' = k
    · subst hk
      simp [bucketGet, objLookup_cons] at h
    · simp only [bucketGet, objLookup_cons, hk, if_false] at h
      simp only [bucketGet, List.cons_append, objLookup_cons, hk, if_false]
      exact ih h

/-- After the `acc[key] ??= []` initialization, the bucket is present and
holds the previous rows (or `[]`). -/
theorem bucketGet_init (acc : Buckets) (k : String) :
    bucketGet (if (bucketGet acc k).isSome then acc else acc ++ [(k, [])]) k =
      some ((bucketGet acc k).getD []) := by
  cases h : bucketGet acc k with
  | none => simpa [h] using bucketGet_append_new acc k h
  | some v => simp [h]

/-- Successful steps are exactly the non-dangling ones, and the resulting
accumulator is the sorted extension of the primary bucket. -/
theorem categorizedStep_ok (slugs : List String) (acc : Buckets)
    (slug : String) (p : MappedPort) (b : Buckets)
    (h : categorizedStep slugs acc slug p = .ok b) :
    aliasDangling slugs p = false ∧
      b = updateBucket
        (if (bucketGet acc (primaryKey p)).isSome then acc
          else acc ++ [(primaryKey p, [])])
        (primaryKey p)
        (fun old => List.insertionSort RowLe (old ++ rowsFor slug p)) := by
  by_cases hd : aliasDangling slugs p
  · simp [categorizedStep, hd] at h
  · simp only [categorizedStep, hd, if_false, Except.ok.injEq,
      Bool.false_eq_true] at h
    exact ⟨by simpa using hd, h.symm⟩

/-! ### Claim theorems -/

/-- A sample entry whose optional `readme` and `platform` are populated. -/
def c1Port : MappedPort :=
  { name := "Zeta", categories := ["a"], readme := some "R",
    platform := some "macos", type := .port }

/-- Claim C1, counterexample.  The claim says every row appended to a bucket
omits the `readme` and `platform` fields.  At runtime the spread
`{...port, url}` copies both fields, so a concrete entry with them populated
yields rows that still carry them: the static `Omit` annotation drops
nothing at runtime. -/
theorem c1_counterexample :
    ((rowsFor "p1" c1Port).all
      (fun r => r.readme.isNone && r.platform.isNone)) = false := by
  rfl

/-- Claim C1, amended: every row appended to a category bucket carries every
field of the source entry — `readme` and `platform` included, contrary to
the claim — with `url` replaced by the resolved URL (and `name` possibly
overridden to a supports variant's name); `readme`/`platform` are omitted
only in the accumulator's static type annotation. -/
theorem c1_rows_carry_all_fields (slug : String) (p : MappedPort) (r : Row)
    (h : r ∈ rowsFor slug p) :
    r.readme = p.readme ∧ r.platform = p.platform ∧
      r.categories = p.categories ∧ r.«alias» = p.«alias» ∧
      r.supports = p.supports ∧ r.type = p.type ∧
      r.url = resolvedUrl slug p := by
  simp only [rowsFor, List.mem_cons, List.mem_map] at h
  rcases h with h | ⟨s, _, h⟩ <;> subst h <;> simp [rowOf]

/-- Witness for `c1_rows_carry_all_fields` at the head row of `c1Port`. -/
theorem c1_witness :
    (rowOf c1Port (resolvedUrl "p1" c1Port) c1Port.name).readme = c1Port.readme ∧
      (rowOf c1Port (resolvedUrl "p1" c1Port) c1Port.name).platform = c1Port.platform ∧
      (rowOf c1Port (resolvedUrl "p1" c1Port) c1Port.name).categories = c1Port.categories ∧
      (rowOf c1Port (resolvedUrl "p1" c1Port) c1Port.name).«alias» = c1Port.«alias» ∧
      (rowOf c1Port (resolvedUrl "p1" c1Port) c1Port.name).supports = c1Port.supports ∧
      (rowOf c1Port (resolvedUrl "p1" c1Port) c1Port.name).type = c1Port.type ∧
      (rowOf c1Port (resolvedUrl "p1" c1Port) c1Port.name).url = resolvedUrl "p1" c1Port :=
  c1_rows_carry_all_fields "p1" c1Port _ (by simp [rowsFor])

/-- Claim C6: the resolved display URL is the entry's `url` verbatim when it
is set (truthy, as the code tests it); otherwise
`https://github.com/catppuccin/{alias ?? slug}` for a port and
`https://github.com/catppuccin/userstyles/tree/main/styles/{slug}` for a
userstyle. -/
theorem c6_resolved_url (slug : String) (p : MappedPort) :
    (∀ u, p.url = some u → u ≠ "" → resolvedUrl slug p = u) ∧
      (strTruthy p.url = false → p.type = .port →
        resolvedUrl slug p = "https://github.com/catppuccin/" ++ (p.«alias».getD slug)) ∧
      (strTruthy p.url = false → p.type = .userstyle →
        resolvedUrl slug p =
          "https://github.com/catppuccin/userstyles/tree/main/styles/" ++ slug) := by
  refine ⟨?_, ?_, ?_⟩
  · intro u hu hne
    simp [resolvedUrl, strTruthy, hu, hne]
  · intro ht hp
    simp [resolvedUrl, ht, derivedUrl, hp]
  · intro ht hp
    simp [resolvedUrl, ht, derivedUrl, hp]

/-- A port with an explicit URL. -/
def c6PortA : MappedPort :=
  { name := "A", categories := ["a"], url := some "https://x", type := .port }

/-- A port with no URL and an alias. -/
def c6PortB : MappedPort :=
  { name := "B", categories := ["a"], «alias» := some "other", type := .port }

/-- A userstyle with no URL. -/
def c6PortC : MappedPort :=
  { name := "C", categories := ["a"], type := .userstyle }

/-- Witness for `c6_resolved_url` on all three branches. -/
theorem c6_witness :
    resolvedUrl "p1" c6PortA = "https://x" ∧
      resolvedUrl "p1" c6PortB = "https://github.com/catppuccin/other" ∧
      resolvedUrl "p1" c6PortC =
        "https://github.com/catppuccin/userstyles/tree/main/styles/p1" := by
  refine ⟨(c6_resolved_url "p1" c6PortA).1 "https://x" rfl (by decide), ?_, ?_⟩
  · have h := (c6_resolved_url "p1" c6PortB).2.1 (by decide) rfl
    simpa [c6PortB] using h
  · have h := (c6_resolved_url "p1" c6PortC).2.2 (by decide) rfl
    simpa using h

/-- Claim C5: a successful grouping step pushes exactly K+1 rows — the
entry's own row followed by one per `supports` value, all sharing the
resolved URL — onto the bucket of the entry's primary category (its bucket
grows by exactly K+1 rows; an entry without `supports` contributes 1). -/
theorem c5_rows_per_entry (slugs : List String) (acc : Buckets)
    (slug : String) (p : MappedPort) (b : Buckets)
    (h : categorizedStep slugs acc slug p = .ok b) :
    rowsFor slug p =
        rowOf p (resolvedUrl slug p) p.name ::
          (supportsValues p).map (fun s => rowOf p (resolvedUrl slug p) s.name) ∧
      (rowsFor slug p).length = (supportsValues p).length + 1 ∧
      (∀ r ∈ rowsFor slug p, r.url = resolvedUrl slug p) ∧
      bucketGet b (primaryKey p) =
        some (List.insertionSort RowLe
          ((bucketGet acc (primaryKey p)).getD [] ++ rowsFor slug p)) ∧
      ((bucketGet b (primaryKey p)).getD []).length =
        ((bucketGet acc (primaryKey p)).getD []).length +
          ((supportsValues p).length + 1) := by
  obtain ⟨-, hb⟩ := categorizedStep_ok slugs acc slug p b h
  have hget : bucketGet b (primaryKey p) =
      some (List.insertionSort RowLe
        ((bucketGet acc (primaryKey p)).getD [] ++ rowsFor slug p)) := by
    rw [hb, bucketGet_updateBucket, bucketGet_init]
    rfl
  refine ⟨rfl, by simp [rowsFor], ?_, hget, ?_⟩
  · intro r hr
    exact (c1_rows_carry_all_fields slug p r hr).2.2.2.2.2.2
  · rw [hget]
    have hperm :=
      List.perm_insertionSort RowLe
        ((bucketGet acc (primaryKey p)).getD [] ++ rowsFor slug p)
    simp [hperm.length_eq, rowsFor]

/-- A port with two `supports` variants. -/
def c5Port : MappedPort :=
  { name := "Nvim", categories := ["a"],
    supports := some [("x", ⟨"X"⟩), ("y", ⟨"Y"⟩)], type := .port }

/-- The bucket state after one step on `c5Port`. -/
def c5B : Buckets :=
  (categorizedStep [] [] "s" c5Port).toOption.getD []

/-- Witness for `c5_rows_per_entry`: the two-variant port contributes three
rows. -/
theorem c5_witness :
    (rowsFor "s" c5Port).length = (supportsValues c5Port).length + 1 ∧
      ((bucketGet c5B (primaryKey c5Port)).getD []).length =
        ((bucketGet ([] : Buckets) (primaryKey c5Port)).getD []).length +
          ((supportsValues c5Port).length + 1) := by
  have h := c5_rows_per_entry [] [] "s" c5Port c5B rfl
  exact ⟨h.2.1, h.2.2.2.2⟩

/-- Claim C9: once the README has been read, the final block always ends by
writing the README — the write is the last emitted effect and records the
current document — and a splice failure is caught and logged while the
write still happens, with the document reflecting exactly the splices that
succeeded before the failure (none for a port-list failure, the port-list
one for a showcase failure). -/
theorem c9_write_always (upd : Splicer) (r pc : String) (sc : Option String) :
    ((finalStage upd r pc sc).2).getLast? =
        some (.write readmePath (finalStage upd r pc sc).1) ∧
      (∀ e, upd r pc "portlist" = .error e →
        Effect.logFailure ∈ (finalStage upd r pc sc).2 ∧
          (finalStage upd r pc sc).1 = r) ∧
      (∀ r1 e, upd r pc "portlist" = .ok r1 → strTruthy sc = true →
        upd r1 (sc.getD "") "showcase" = .error e →
        Effect.logFailure ∈ (finalStage upd r pc sc).2 ∧
          (finalStage upd r pc sc).1 = r1) := by
  refine ⟨?_, ?_, ?_⟩
  · cases h1 : upd r pc "portlist" with
    | error e => simp [finalStage, h1]
    | ok r1 =>
      cases hsc : strTruthy sc with
      | false => simp [finalStage, h1, hsc]
      | true =>
        cases h2 : upd r1 (sc.getD "") "showcase" with
        | error e => simp [finalStage, h1, hsc, h2]
        | ok r2 => simp [finalStage, h1, hsc, h2]
  · intro e h1
    simp [finalStage, h1]
  · intro r1 e h1 hsc h2
    simp [finalStage, h1, hsc, h2]

/-- A splicer that always throws. -/
def updFail : Splicer := fun _ _ _ => .error "section not found"

/-- Witness for `c9_write_always`: with a throwing splicer the failure is
logged and the original document is what gets written. -/
theorem c9_witness :
    Effect.logFailure ∈ (finalStage updFail "R" "P" none).2 ∧
      (finalStage updFail "R" "P" none).1 = "R" :=
  (c9_write_always updFail "R" "P" none).2.1 "section not found" rfl

/-- Claim C10: both splices share one `try`: a port-list failure yields
exactly the attempt/log/write-of-the-original effect trace (the showcase is
never attempted and the written document is the untouched README); a
showcase attempt can only happen after a successful port-list splice; and a
falsy rendered showcase fragment — `none` for an absent collection or `""`
for an empty one — skips the showcase splice entirely. -/
theorem c10_shared_error_scope (upd : Splicer) (r pc : String)
    (sc : Option String) :
    (∀ e, upd r pc "portlist" = .error e →
        (finalStage upd r pc sc).2 =
          [.spliceAttempt "portlist", .logFailure, .write readmePath r] ∧
          (finalStage upd r pc sc).1 = r) ∧
      (Effect.spliceAttempt "showcase" ∈ (finalStage upd r pc sc).2 →
        ∃ r1, upd r pc "portlist" = .ok r1 ∧ strTruthy sc = true) ∧
      (strTruthy sc = false →
        Effect.spliceAttempt "showcase" ∉ (finalStage upd r pc sc).2) ∧
      (∀ shc : Option (List Showcase),
        shc = none ∨ shc = some [] → strTruthy (showcaseContent shc) = false) := by
  refine ⟨?_, ?_, ?_, ?_⟩
  · intro e h1
    simp [finalStage, h1]
  · intro hmem
    cases h1 : upd r pc "portlist" with
    | error e => simp [finalStage, h1] at hmem
    | ok r1 =>
      refine ⟨r1, rfl, ?_⟩
      cases hsc : strTruthy sc with
      | false => simp [finalStage, h1, hsc] at hmem
      | true => rfl
  · intro hsc
    cases h1 : upd r pc "portlist" with
    | error e => simp [finalStage, h1]
    | ok r1 => simp [finalStage, h1, hsc]
  · rintro shc (rfl | rfl)
    · rfl
    · simp [showcaseContent, strTruthy]
      rfl

/-- Witness for `c10_shared_error_scope`: a failing port-list splice leaves
the README untouched and never reaches the showcase. -/
theorem c10_witness :
    (finalStage updFail "R" "P" (some "S")).2 =
        [.spliceAttempt "portlist", .logFailure, .write readmePath "R"] ∧
      (finalStage updFail "R" "P" (some "S")).1 = "R" :=
  (c10_shared_error_scope updFail "R" "P" (some "S")).1 "section not found" rfl

/-! ### Sortedness invariant (C4) -/

/-- Every bucket of the accumulator is non-decreasing by `name`. -/
def SortedBuckets (b : Buckets) : Prop :=
  ∀ kv ∈ b, List.Pairwise RowLe kv.2

/-- One successful step keeps every bucket sorted: the touched bucket is the
output of `mergeSort`, the others are unchanged. -/
theorem categorizedStep_sorted (slugs : List String) (acc : Buckets)
    (slug : String) (p : MappedPort) (b : Buckets)
    (h : categorizedStep slugs acc slug p = .ok b)
    (hs : SortedBuckets acc) : SortedBuckets b := by
  obtain ⟨-, hb⟩ := categorizedStep_ok slugs acc slug p b h
  subst hb
  intro kv hkv
  simp only [updateBucket, List.mem_map] at hkv
  obtain ⟨⟨k', v⟩, hmem, hkv⟩ := hkv
  have hinit : SortedBuckets
      (if (bucketGet acc (primaryKey p)).isSome then acc
        else acc ++ [(primaryKey p, [])]) := by
    split
    · exact hs
    · intro kv hkv
      rcases List.mem_append.mp hkv with hkv | hkv
      · exact hs kv hkv
      · simp only [List.mem_singleton] at hkv
        subst hkv
        exact List.Pairwise.nil
  by_cases hk : k' = primaryKey p
  · simp only [hk, if_pos rfl] at hkv
    subst hkv
    exact List.sorted_insertionSort RowLe _
  · simp only [if_neg hk] at hkv
    subst hkv
    exact hinit _ hmem

/-- The reduce preserves bucket sortedness from any starting accumulator. -/
theorem categorizedFoldFrom_sorted (slugs : List String) :
    ∀ (entries : List (String × MappedPort)) (acc b : Buckets),
      SortedBuckets acc →
      categorizedFoldFrom slugs acc entries = .ok b → SortedBuckets b := by
  intro entries
  induction entries with
  | nil =>
    intro acc b hs h
    simp only [categorizedFoldFrom, Except.ok.injEq] at h
    exact h ▸ hs
  | cons kv t ih =>
    intro acc b hs h
    simp only [categorizedFoldFrom] at h
    cases hstep : categorizedStep slugs acc kv.1 kv.2 with
    | error e => simp [hstep] at h
    | ok acc' =>
      simp only [hstep] at h
      exact ih acc' b (categorizedStep_sorted slugs acc kv.1 kv.2 acc' hstep hs) h

/-- Claim C4: after grouping any prefix of the entry sequence — i.e. after
every individual entry's rows have been inserted, not only at the end —
every category bucket is non-decreasing by `name` under the sort
comparator. -/
theorem c4_buckets_sorted (slugs : List String)
    (entries : List (String × MappedPort)) (n : ℕ) (b : Buckets)
    (h : categorizedFold slugs (entries.take n) = .ok b) :
    ∀ kv ∈ b, List.Pairwise RowLe kv.2 :=
  categorizedFoldFrom_sorted slugs (entries.take n) [] b
    (fun _ hkv => absurd hkv (List.not_mem_nil _)) h

/-- Two same-category ports in anti-alphabetical insertion order. -/
def c4Entries : List (String × MappedPort) :=
  [("p1", { name := "Zeta", categories := ["a"], type := .port }),
   ("p2", { name := "Beta", categories := ["a"], type := .port })]

/-- The rows the grouping of `c4Entries` leaves in bucket `"a"`. -/
def c4Rows : List Row :=
  [{ name := "Beta", url := "https://github.com/catppuccin/p2",
     categories := ["a"], type := .port },
   { name := "Zeta", url := "https://github.com/catppuccin/p1",
     categories := ["a"], type := .port }]

/-- Witness for `c4_buckets_sorted` on the concrete two-port input. -/
theorem c4_witness : List.Pairwise RowLe c4Rows :=
  c4_buckets_sorted ["p1", "p2"] c4Entries 2 [("a", c4Rows)] (by rfl)
    ("a", c4Rows) (List.mem_singleton_self _)

/-! ### Fatal grouping errors (C2, C3) -/

/-- A step throws exactly on a dangling alias, with the offending slug and
alias in the error. -/
theorem categorizedStep_error (slugs : List String) (acc : Buckets)
    (slug : String) (p : MappedPort) (e : RunError)
    (h : categorizedStep slugs acc slug p = .error e) :
    aliasDangling slugs p = true ∧ e = .danglingAlias slug (p.«alias».getD "") := by
  by_cases hd : aliasDangling slugs p
  · refine ⟨hd, ?_⟩
    simp only [categorizedStep, hd, if_true, Except.error.injEq] at h
    exact h.symm
  · simp [categorizedStep, hd] at h

/-- `aliasDangling` unpacked: a truthy alias naming no known slug. -/
theorem aliasDangling_iff (slugs : List String) (p : MappedPort) :
    aliasDangling slugs p = true ↔
      ∃ a, p.«alias» = some a ∧ a ≠ "" ∧ a ∉ slugs := by
  cases ha : p.«alias» with
  | none => simp [aliasDangling, ha]
  | some a =>
    simp [aliasDangling, ha, List.contains, List.elem_iff]

/-- A successful fold has no dangling alias anywhere in its input. -/
theorem categorizedFoldFrom_ok_no_dangling (slugs : List String) :
    ∀ (entries : List (String × MappedPort)) (acc b : Buckets),
      categorizedFoldFrom slugs acc entries = .ok b →
      ∀ kv ∈ entries, aliasDangling slugs kv.2 = false := by
  intro entries
  induction entries with
  | nil =>
    intro acc b _ kv hkv
    exact absurd hkv (List.not_mem_nil _)
  | cons hd t ih =>
    intro acc b h kv hkv
    simp only [categorizedFoldFrom] at h
    cases hstep : categorizedStep slugs acc hd.1 hd.2 with
    | error e => simp [hstep] at h
    | ok acc' =>
      simp only [hstep] at h
      rcases List.mem_cons.mp hkv with rfl | hkv
      · exact (categorizedStep_ok slugs acc kv.1 kv.2 acc'
          (by simpa using hstep)).1
      · exact ih acc' b h kv hkv

/-- A failing fold fails on a dangling alias of one of its entries, and the
error names that entry's slug and its alias. -/
theorem categorizedFoldFrom_error_shape (slugs : List String) :
    ∀ (entries : List (String × MappedPort)) (acc : Buckets) (e : RunError),
      categorizedFoldFrom slugs acc entries = .error e →
      ∃ s p, (s, p) ∈ entries ∧ aliasDangling slugs p = true ∧
        e = .danglingAlias s (p.«alias».getD "") := by
  intro entries
  induction entries with
  | nil => intro acc e h; simp [categorizedFoldFrom] at h
  | cons hd t ih =>
    intro acc e h
    simp only [categorizedFoldFrom] at h
    cases hstep : categorizedStep slugs acc hd.1 hd.2 with
    | error e' =>
      simp only [hstep, Except.error.injEq] at h
      obtain ⟨hd0, he⟩ := categorizedStep_error slugs acc hd.1 hd.2 e' hstep
      exact ⟨hd.1, hd.2, List.mem_cons_self _ _, hd0, h ▸ he⟩
    | ok acc' =>
      simp only [hstep] at h
      obtain ⟨s, p, hmem, hdg, he⟩ := ih acc' e h
      exact ⟨s, p, List.mem_cons_of_mem _ hmem, hdg, he⟩

/-- `main` on fully-present collections is the grouping followed by the
render/splice/write stage. -/
theorem main_some (upd : Splicer) (portsIn : List (String × Entry))
    (cats : List Category) (ustIn : List (String × Entry))
    (sh : Option (List Showcase)) (rm : String) :
    main upd ⟨some portsIn, some cats, some ustIn, sh, rm⟩ =
      (categorized portsIn ustIn).map (fun b =>
        (finalStage upd rm (portContent cats b) (showcaseContent sh)).2) := by
  cases hf : categorized portsIn ustIn <;>
    simp [main, hf, Except.map, Bind.bind, Except.bind]

/-- A splicer that always succeeds, leaving the document unchanged. -/
def updOk : Splicer := fun d _ _ => .ok d

/-- The configuration with all three collections present but empty. -/
def c2Input : RunInput :=
  { ports := some [], categories := some [], userstyles := some [],
    showcases := none, readme := "R" }

/-- Claim C2, counterexample.  The guard is
`!portsData.ports || !categoriesData || !userstylesData.userstyles`;
an empty object/array is truthy in JS, so a present but zero-entry ports
collection does NOT abort: the run proceeds all the way to the README
write. -/
theorem c2_counterexample :
    main updOk c2Input =
      .ok [.spliceAttempt "portlist", .write readmePath "R"] := rfl

/-- Claim C2, amended: the run aborts with the configuration error
`"ports.yml is empty"` exactly when the ports collection, the categories
document, or the userstyles collection is absent (`undefined`/`null`)
after validation; a present but empty collection passes the guard and the
run proceeds to merging, grouping, rendering and the file write. -/
theorem c2_amended_empty_guard (upd : Splicer) (i : RunInput) :
    main upd i = .error .emptyConfig ↔
      (i.ports = none ∨ i.categories = none ∨ i.userstyles = none) := by
  obtain ⟨po, ca, us, sh, rm⟩ := i
  constructor
  · intro h
    match po, ca, us with
    | some portsIn, some cats, some ustIn =>
      exfalso
      rw [main_some] at h
      cases hf : categorized portsIn ustIn with
      | ok b => simp [hf, Except.map] at h
      | error e =>
        rw [hf] at h
        simp only [Except.map, Except.error.injEq] at h
        obtain ⟨s, p, -, -, he⟩ :=
          categorizedFoldFrom_error_shape _ _ _ _ hf
        rw [h] at he
        exact RunError.noConfusion he
    | none, _, _ => left; rfl
    | some _, none, _ => right; left; rfl
    | some _, some _, none => right; right; rfl
  · intro h
    rcases h with h | h | h <;> subst h
    · rfl
    · cases po <;> rfl
    · cases po <;> cases ca <;> rfl

/-- Claim C3: if any merged entry carries a (truthy) alias that is not
among the known slugs, the whole run fails with the dangling-alias error —
`main` returns `Except.error`, so no effect list is produced: nothing is
rendered into the README and the file is never written — and the error's
message names the offending entry's slug and the dangling alias value. -/
theorem c3_dangling_alias_fatal (upd : Splicer) (i : RunInput)
    (portsIn : List (String × Entry)) (cats : List Category)
    (ustIn : List (String × Entry))
    (hp : i.ports = some portsIn) (hc : i.categories = some cats)
    (hu : i.userstyles = some ustIn)
    (slug : String) (p : MappedPort) (a : String)
    (hmem : (slug, p) ∈ mergedPorts portsIn ustIn)
    (ha : p.«alias» = some a) (hne : a ≠ "")
    (hnm : a ∉ (mergedPorts portsIn ustIn).map Prod.fst) :
    ∃ slug0 p0 a0,
      main upd i = .error (.danglingAlias slug0 a0) ∧
      (RunError.danglingAlias slug0 a0).message =
        "port `" ++ slug0 ++ "` points to an alias `" ++ a0 ++
          "` that doesn't exist" ∧
      (slug0, p0) ∈ mergedPorts portsIn ustIn ∧ p0.«alias» = some a0 ∧
      a0 ≠ "" ∧ a0 ∉ (mergedPorts portsIn ustIn).map Prod.fst := by
  obtain ⟨po, ca, us, sh, rm⟩ := i
  simp only at hp hc hu
  subst hp hc hu
  rw [main_some]
  cases hf : categorized portsIn ustIn with
  | ok b =>
    exfalso
    have hno := categorizedFoldFrom_ok_no_dangling
      ((mergedPorts portsIn ustIn).map Prod.fst)
      (mergedPorts portsIn ustIn) [] b hf (slug, p) hmem
    have hyes : aliasDangling ((mergedPorts portsIn ustIn).map Prod.fst) p = true :=
      (aliasDangling_iff _ p).mpr ⟨a, ha, hne, hnm⟩
    rw [hno] at hyes
    exact Bool.noConfusion hyes
  | error e =>
    obtain ⟨s, p0, hmem0, hdg0, he⟩ :=
      categorizedFoldFrom_error_shape _ _ _ _ hf
    obtain ⟨a0, ha0, hne0, hnm0⟩ := (aliasDangling_iff _ p0).mp hdg0
    refine ⟨s, p0, a0, ?_, rfl, hmem0, ha0, hne0, hnm0⟩
    subst he
    simp [Except.map, ha0]

/-- The port of the spec's dangling-alias example. -/
def c3Entry : Entry :=
  { name := "Zed", categories := ["a"], «alias» := some "missing-slug" }

/-- The run input of the spec's dangling-alias example. -/
def c3Input : RunInput :=
  { ports := some [("p1", c3Entry)], categories := some [],
    userstyles := some [], showcases := none, readme := "R" }

/-- Witness for `c3_dangling_alias_fatal` on the spec's example: a port
whose alias is `"missing-slug"`. -/
theorem c3_witness :
    ∃ slug0 p0 a0,
      main updOk c3Input = .error (.danglingAlias slug0 a0) ∧
      (RunError.danglingAlias slug0 a0).message =
        "port `" ++ slug0 ++ "` points to an alias `" ++ a0 ++
          "` that doesn't exist" ∧
      (slug0, p0) ∈ mergedPorts [("p1", c3Entry)] [] ∧ p0.«alias» = some a0 ∧
      a0 ≠ "" ∧ a0 ∉ (mergedPorts [("p1", c3Entry)] []).map Prod.fst :=
  c3_dangling_alias_fatal updOk c3Input [("p1", c3Entry)] [] [] rfl rfl rfl
    "p1" (MappedPort.mk c3Entry .port) "missing-slug"
    (by decide) rfl (by decide) (by decide)

/-! ### The merger (C7) -/

theorem objLookup_replaceAll (m : List (String × α)) (k : String) (v : α)
    (k' : String) :
    objLookup (m.map (fun p => if p.1 = k then (k, v) else p)) k' =
      if k' = k then (objLookup m k).map (fun _ => v)
      else objLookup m k' := by
  induction m with
  | nil => by_cases h : k' = k <;> simp [objLookup, h]
  | cons hd t ih =>
    obtain ⟨a, w⟩ := hd
    simp only [List.map_cons]
    by_cases hak : a = k
    · subst hak
      rw [show (if ((a, w) : String × α).1 = a then (a, v) else (a, w)) = (a, v)
        from if_pos rfl]
      by_cases hk : k' = a
      · subst hk
        simp [objLookup_cons]
      · have hk2 : ¬a = k' := fun h => hk h.symm
        simp [objLookup_cons, hk, hk2, ih]
    · rw [show (if ((a, w) : String × α).1 = k then (k, v) else (a, w)) = (a, w)
        from if_neg hak]
      by_cases hk : a = k'
      · subst hk
        simp [objLookup_cons, hak]
      · simp only [objLookup_cons, hk, if_false]
        rw [ih]
        by_cases hkk : k' = k
        · subst hkk
          simp [objLookup_cons, hk]
        · simp [hkk]

theorem any_key_objLookup_isSome (m : List (String × α)) (k : String) :
    m.any (fun p => p.1 = k) = (objLookup m k).isSome := by
  induction m with
  | nil => rfl
  | cons hd t ih =>
    obtain ⟨a, w⟩ := hd
    by_cases hak : a = k
    · subst hak
      simp [objLookup]
    · simp [objLookup, hak, ih]

/-- Object assignment observed through property lookup: the assigned key now
maps to the new value, every other key is untouched. -/
theorem objLookup_objInsert (m : List (String × α)) (k : String) (v : α)
    (k' : String) :
    objLookup (objInsert m k v) k' =
      if k' = k then some v else objLookup m k' := by
  unfold objInsert
  by_cases h : m.any (fun p => p.1 = k)
  · rw [if_pos h, objLookup_replaceAll]
    have hsome : (objLookup m k).isSome := by
      rw [← any_key_objLookup_isSome]
      exact h
    by_cases hk : k' = k
    · subst hk
      cases hl : objLookup m k' with
      | none => rw [hl] at hsome; simp at hsome
      | some w => simp [hl]
    · simp [hk]
  · rw [if_neg h]
    have hnotk : ∀ p ∈ m, ¬p.1 = k := by
      intro p hp hpk
      exact h (List.any_eq_true.mpr ⟨p, hp, by simpa using hpk⟩)
    clear h
    induction m with
    | nil =>
      by_cases hk : k' = k
      · subst hk
        simp [objLookup_cons, objLookup]
      · have hkk : ¬k = k' := fun hh => hk hh.symm
        simp [objLookup_cons, objLookup, hk, hkk]
    | cons hd t ih2 =>
      obtain ⟨a, w⟩ := hd
      have hat : ∀ p ∈ t, ¬p.1 = k := fun p hp =>
        hnotk p (List.mem_cons_of_mem _ hp)
      have hak : ¬a = k := hnotk (a, w) (List.mem_cons_self _ _)
      by_cases hk : a = k'
      · subst hk
        simp [List.cons_append, objLookup_cons, hak]
      · simp only [List.cons_append, objLookup_cons, hk, if_false]
        exact ih2 hat

/-- `lastOcc` unfolded one step: the tail's last occurrence wins over the
head. -/
theorem lastOcc_cons (hd : String × α) (t : List (String × α)) (k : String) :
    lastOcc (hd :: t) k =
      match lastOcc t k with
      | some v => some v
      | none => if hd.1 = k then some hd.2 else none := by
  obtain ⟨a, w⟩ := hd
  by_cases hak : a = k
  · simp only [lastOcc, List.filter_cons, hak, decide_True, if_pos]
    rw [List.getLast?_cons]
    cases hft : (List.filter (fun p => decide (p.1 = k)) t).getLast? with
    | none => simp [hft, hak]
    | some x => simp [hft]
  · have hd : (decide (a = k)) = false := by simpa using hak
    simp only [lastOcc, List.filter_cons, hd, Bool.false_eq_true, if_false, hak]
    cases hft : (List.filter (fun p => decide (p.1 = k)) t).getLast? <;>
      simp [hft, hak]

/-- The object built by a fold of assignments answers lookups with the last
assignment for the key, falling back to the starting object. -/
theorem objLookup_foldl_objInsert (l : List (String × α)) :
    ∀ (acc : List (String × α)) (k : String),
      objLookup (l.foldl (fun acc kv => objInsert acc kv.1 kv.2) acc) k =
        match lastOcc l k with
        | some v => some v
        | none => objLookup acc k := by
  induction l with
  | nil => intro acc k; simp [lastOcc, objLookup]
  | cons hd t ih =>
    intro acc k
    obtain ⟨a, w⟩ := hd
    simp only [List.foldl_cons]
    rw [ih (objInsert acc a w) k, lastOcc_cons]
    cases hto : lastOcc t k with
    | some v => rfl
    | none =>
      simp only []
      rw [objLookup_objInsert]
      by_cases hak : a = k
      · subst hak
        simp
      · have hka : ¬k = a := fun h => hak h.symm
        simp [hak, hka]

/-- Keys after an object assignment: unchanged when the key was present,
extended by the new key otherwise. -/
theorem map_fst_objInsert (m : List (String × α)) (k : String) (v : α) :
    (objInsert m k v).map Prod.fst =
      if m.any (fun p => p.1 = k) then m.map Prod.fst
      else m.map Prod.fst ++ [k] := by
  unfold objInsert
  by_cases h : m.any (fun p => p.1 = k)
  · rw [if_pos h, if_pos h, List.map_map]
    apply List.map_congr_left
    intro p _
    by_cases hpk : p.1 = k
    · simp [Function.comp, hpk]
    · simp [Function.comp, hpk]
  · rw [if_neg h, if_neg h, List.map_append]
    rfl

theorem nodup_keys_objInsert (m : List (String × α)) (k : String) (v : α)
    (h : (m.map Prod.fst).Nodup) :
    ((objInsert m k v).map Prod.fst).Nodup := by
  by_cases hany : m.any (fun p => p.1 = k)
  · rw [map_fst_objInsert, if_pos hany]
    exact h
  · rw [map_fst_objInsert, if_neg hany]
    rw [List.nodup_append]
    refine ⟨h, List.nodup_singleton k, ?_⟩
    intro x hx hxk
    simp only [List.mem_singleton] at hxk
    subst hxk
    obtain ⟨p, hp, hfst⟩ := List.mem_map.mp hx
    exact hany (List.any_eq_true.mpr ⟨p, hp, by simpa using hfst⟩)

theorem nodup_keys_foldl (l : List (String × α)) :
    ∀ acc : List (String × α), (acc.map Prod.fst).Nodup →
      ((l.foldl (fun acc kv => objInsert acc kv.1 kv.2) acc).map Prod.fst).Nodup := by
  induction l with
  | nil => intro acc h; exact h
  | cons hd t ih =>
    intro acc h
    exact ih _ (nodup_keys_objInsert _ _ _ h)

/-- On an object with no repeated keys, the last occurrence IS the property
value. -/
theorem lastOcc_eq_objLookup_of_nodup (m : List (String × α))
    (h : (m.map Prod.fst).Nodup) (k : String) :
    lastOcc m k = objLookup m k := by
  induction m with
  | nil => rfl
  | cons hd t ih =>
    obtain ⟨a, w⟩ := hd
    simp only [List.map_cons, List.nodup_cons] at h
    obtain ⟨hna, hnd⟩ := h
    rw [lastOcc_cons]
    by_cases hak : a = k
    · subst hak
      have hto : lastOcc t a = none := by
        have hf : List.filter (fun p => decide (p.1 = a)) t = [] := by
          rw [List.filter_eq_nil_iff]
          intro p hp
          simp only [decide_eq_true_eq]
          intro hpk
          exact hna (hpk ▸ List.mem_map_of_mem Prod.fst hp)
        simp [lastOcc, hf]
      simp [hto, objLookup_cons]
    · rw [objLookup_cons, if_neg hak, ← ih hnd]
      cases hto : lastOcc t k <;> simp [hto, hak]

/-- Tagging commutes with taking the last occurrence. -/
theorem lastOcc_map_tag (l : List (String × α)) (f : α → β) (k : String) :
    lastOcc (l.map (fun kv => (kv.1, f kv.2))) k = (lastOcc l k).map f := by
  induction l with
  | nil => rfl
  | cons hd t ih =>
    obtain ⟨a, w⟩ := hd
    rw [List.map_cons, lastOcc_cons, lastOcc_cons, ih]
    cases hto : lastOcc t k with
    | some v => rfl
    | none => by_cases hak : a = k <;> simp [hak]

/-- Claim C7: the merger yields a single mapping keyed by slug (its keys are
duplicate-free); looking a slug up yields the LAST userstyle entry with that
slug tagged `"userstyle"` when one exists — so on a collision the userstyle
silently overwrites the port — and otherwise the last port entry with that
slug tagged `"port"`. -/
theorem c7_merge_last_write_wins (portsIn ustIn : List (String × Entry))
    (slug : String) :
    objLookup (mergedPorts portsIn ustIn) slug =
      (match lastOcc ustIn slug with
       | some u => some (MappedPort.mk u .userstyle)
       | none => (lastOcc portsIn slug).map (fun e => MappedPort.mk e .port)) ∧
    ((mergedPorts portsIn ustIn).map Prod.fst).Nodup := by
  have hdef : mergedPorts portsIn ustIn =
      objSpread
        (jsObj (portsIn.map (fun kv => (kv.1, MappedPort.mk kv.2 .port))))
        (jsObj (ustIn.map (fun kv => (kv.1, MappedPort.mk kv.2 .userstyle)))) :=
    rfl
  constructor
  · rw [hdef]
    unfold objSpread
    rw [objLookup_foldl_objInsert]
    have hbn : ((jsObj (ustIn.map
        (fun kv => (kv.1, MappedPort.mk kv.2 .userstyle)))).map Prod.fst).Nodup :=
      nodup_keys_foldl _ [] (by simp)
    rw [lastOcc_eq_objLookup_of_nodup _ hbn]
    unfold jsObj
    rw [objLookup_foldl_objInsert, objLookup_foldl_objInsert,
      lastOcc_map_tag ustIn (fun e => MappedPort.mk e .userstyle) slug,
      lastOcc_map_tag portsIn (fun e => MappedPort.mk e .port) slug]
    cases lastOcc ustIn slug with
    | some u => rfl
    | none =>
      cases lastOcc portsIn slug with
      | some e => rfl
      | none => rfl
  · rw [hdef]
    unfold objSpread
    apply nodup_keys_foldl
    apply nodup_keys_foldl
    simp

/-! ### The renderer (C8) -/

/-- The claim's description of the rendered port list, stated directly over
the category list: keep only the categories (in their declared order) whose
bucket is non-empty, render each as a collapsible block titled
`"{emoji} {name}"` whose body is one `- [{name}]({url})` item per row
joined by newlines, and join the blocks with newlines. -/
def portContentByCategory (cats : List Category) (b : Buckets) : String :=
  String.intercalate "\n"
    ((cats.filter (fun c => !((bucketGet b c.key).getD []).isEmpty)).map
      (fun c =>
        "<details open>\n<summary>" ++ c.emoji ++ " " ++ c.name
          ++ "</summary>\n\n"
          ++ String.intercalate "\n"
              (((bucketGet b c.key).getD []).map
                (fun r => "- [" ++ r.name ++ "](" ++ r.url ++ ")"))
          ++ "\n\n</details>"))

theorem length_bne_zero_eq_not_isEmpty (rows : List Row) :
    (rows.length != 0) = !rows.isEmpty := by
  cases rows <;> rfl

/-- Claim C8: the port-list fragment built by the code (map each category to
its bucket, drop the empty ones, render, join) coincides with the claim's
reading: categories iterated in declared configuration order, empty or
absent buckets producing no block at all, and each non-empty category
rendered as the collapsible block with its emoji-and-name title and one
markdown link item per row. -/
theorem c8_render_port_list (cats : List Category) (b : Buckets) :
    portContent cats b = portContentByCategory cats b := by
  unfold portContent portContentByCategory portListData
  congr 1
  induction cats with
  | nil => rfl
  | cons c t ih =>
    simp only [List.map_cons, List.filter_cons]
    rw [length_bne_zero_eq_not_isEmpty]
    cases hc : !((bucketGet b c.key).getD []).isEmpty with
    | false =>
      simp only [hc, Bool.false_eq_true, if_false]
      exact ih
    | true =>
      simp only [hc, if_true, List.map_cons]
      rw [ih]
      rfl

end Catppuccin